import Mathlib

/-!
Shallow embedding of the telegram-forwarder-bot repository
(src/database.py, src/history_handler.py, src/config.py, src/manager.py)
and proofs about the claims of its specification.

Conventions of the embedding:
* SQLite tables become Lean lists/options of structures; timestamp columns
  (forwarded_at, created_at, updated_at, started_at, completed_at) are omitted,
  no claim observes them.
* The forwarding_progress table always holds a single current row (the code
  inserts one row when none exists and afterwards always updates the row with
  the maximal id), so it is modelled as an Option.
* Fallible transport calls are driven by oracles in an environment record;
  time is virtual: only the sleeps of the rate limiter advance the clock.
-/

namespace ForwarderBot

/-- Mirrors a row of the forwarded_messages table of database.py
(source_message_id UNIQUE, destination_message_id nullable, message_type,
error_message nullable; the timestamp column is omitted). -/
structure FwdRecord where
  source_message_id : Nat
  destination_message_id : Option Nat
  message_type : String
  error_message : Option String
deriving Repr, DecidableEq

/-- Mirrors a row of the forwarding_progress table of database.py
(timestamps omitted). -/
structure ProgressRow where
  last_forwarded_message_id : Nat
  total_messages_forwarded : Nat
  historical_forwarding_complete : Bool
deriving Repr, DecidableEq

/-- Mirrors a row of the error_log table of database.py (timestamp omitted). -/
structure ErrEntry where
  error_type : String
  error_message : String
  source_message_id : Option Nat
deriving Repr, DecidableEq

/-- Mirrors a row of the cloned_bots table of database.py
(timestamps omitted). -/
structure BotRow where
  id : Nat
  bot_token : String
  source_channel_id : String
  destination_channel_id : String
  owner_chat_id : Int
  status : String
  process_id : Option Nat
deriving Repr, DecidableEq

/-- The persistent state handled by class Database of database.py:
one field per table touched by the claims. -/
structure DB where
  forwarded_messages : List FwdRecord
  bot_state : List (String × String)
  forwarding_progress : Option ProgressRow
  error_log : List ErrEntry
  cloned_bots : List BotRow
deriving Repr, DecidableEq

/-- Database.is_message_forwarded: SELECT 1 FROM forwarded_messages WHERE
source_message_id = ?. -/
def DB.is_message_forwarded (db : DB) (src : Nat) : Bool :=
  db.forwarded_messages.any (fun r => r.source_message_id == src)

/-- Database.add_forwarded_message: a plain INSERT; the UNIQUE constraint on
source_message_id makes the insert raise IntegrityError (return False, write
nothing) exactly when a row with that source_message_id already exists. -/
def DB.add_forwarded_message (db : DB) (src : Nat) (dst : Option Nat)
    (mtype : String) (err : Option String) : Bool × DB :=
  if db.forwarded_messages.any (fun r => r.source_message_id == src) then
    (false, db)
  else
    (true, { db with forwarded_messages :=
        ⟨src, dst, mtype, err⟩ :: db.forwarded_messages })

/-- Database.set_state: INSERT OR REPLACE keyed by the UNIQUE key column. -/
def DB.set_state (db : DB) (k v : String) : DB :=
  { db with bot_state := (k, v) :: db.bot_state.filter (fun p => p.1 != k) }

/-- Database.get_state: SELECT value FROM bot_state WHERE key = ?. -/
def DB.get_state (db : DB) (k : String) : Option String :=
  (db.bot_state.find? (fun p => p.1 == k)).map (fun p => p.2)

/-- Database.get_forwarding_progress: the latest (single current) row. -/
def DB.get_forwarding_progress (db : DB) : Option ProgressRow :=
  db.forwarding_progress

/-- Database.update_forwarding_progress: updates the current row when one
exists, otherwise inserts one; either way the current row afterwards holds
exactly the given values. -/
def DB.update_forwarding_progress (db : DB) (lastId total : Nat)
    (complete : Bool) : DB :=
  { db with forwarding_progress := some ⟨lastId, total, complete⟩ }

/-- Database.log_error: append-only INSERT into error_log. -/
def DB.log_error (db : DB) (etype emsg : String) (src : Option Nat) : DB :=
  { db with error_log := ⟨etype, emsg, src⟩ :: db.error_log }

/-- Modelled from the spec: Database.get_cloned_bot_by_token is invoked by
HistoryHandler.forward_historical_messages (history_handler.py line 100) but
is defined nowhere in database.py; the spec says the worker resolves its own
WorkerConfig by credential (token) lookup against the control-plane store,
exactly what the existing Database.get_cloned_bot_config does by token. -/
def DB.get_cloned_bot_by_token (db : DB) (token : String) : Option BotRow :=
  db.cloned_bots.find? (fun r => r.bot_token == token)

/-- Database.get_cloned_bot_by_id: SELECT * FROM cloned_bots WHERE id = ?. -/
def DB.get_cloned_bot_by_id (db : DB) (botId : Nat) : Option BotRow :=
  db.cloned_bots.find? (fun r => r.id == botId)

/-- The row change applied by Database.update_cloned_bot_status: the status
is set, and the process_id too when one is given. -/
def statusUpdate (status : String) (pid : Option Nat) (r : BotRow) : BotRow :=
  match pid with
  | some p => { r with status := status, process_id := some p }
  | none => { r with status := status }

/-- Database.update_cloned_bot_status: UPDATE of status (and of process_id
when one is given) of the rows whose id matches. -/
def DB.update_cloned_bot_status (db : DB) (botId : Nat) (status : String)
    (pid : Option Nat) : DB :=
  { db with cloned_bots := db.cloned_bots.map (fun r =>
      if r.id == botId then statusUpdate status pid r else r) }

/-- Arguments of one Database.add_forwarded_message call beyond the source
message id (destination id, message type, error message). -/
structure RecArgs where
  dst : Option Nat
  mtype : String
  err : Option String
deriving Repr, DecidableEq

/-- A sequence of Database.add_forwarded_message calls for one fixed
source_message_id, returning the list of results in order together with the
final database. -/
def runRecordAttempts (db : DB) (srcId : Nat) : List RecArgs → List Bool × DB
  | [] => ([], db)
  | c :: rest =>
      let step := db.add_forwarded_message srcId c.dst c.mtype c.err
      let restRun := runRecordAttempts step.2 srcId rest
      (step.1 :: restRun.1, restRun.2)

/-- Number of ledger rows for a given source_message_id. -/
def DB.countRecords (db : DB) (srcId : Nat) : Nat :=
  (db.forwarded_messages.filter (fun r => r.source_message_id == srcId)).length

/-! The Backfill Engine: HistoryHandler of history_handler.py. -/

/-- The configuration constants of config.py used by the history handler. -/
structure Config where
  MESSAGES_PER_BATCH : Nat
  BATCH_INTERVAL_SECONDS : ℚ
  OWNER_ID : Int
deriving Repr, DecidableEq

/-- DELAY_PER_MESSAGE of config.py: BATCH_INTERVAL_SECONDS / MESSAGES_PER_BATCH. -/
def Config.DELAY_PER_MESSAGE (c : Config) : ℚ :=
  c.BATCH_INTERVAL_SECONDS / (c.MESSAGES_PER_BATCH : ℚ)

/-- A channel history message; only its id matters to the engine's control
flow (the kind dispatch of _forward_single_message is collapsed into one
opaque delivery per message). -/
structure Msg where
  id : Nat
deriving Repr, DecidableEq

/-- The environment of one forward_historical_messages run: configuration,
Telethon availability, the channel history (ascending ids, as produced by
iter_messages with reverse=True) and oracles deciding the outcome of each
transport call. -/
structure Env where
  config : Config
  bot_token : String
  telethon_creds_set : Bool
  telethon_connect_ok : Bool
  telethon_authorized : Bool
  history : List Msg
  direct_forward_ok : Nat → Bool
  send_ok : Nat → Bool
  dest_id : Nat → Nat
  err_text : Nat → String

/-- HistoryHandler._get_telethon_client returns a usable client exactly when
the credentials are set, the connection attempt does not raise and the
session is authorized; otherwise it returns None. -/
def Env.telethonClientAvailable (env : Env) : Bool :=
  env.telethon_creds_set && env.telethon_connect_ok && env.telethon_authorized

/-- A transport delivery to the destination channel: either the direct
bot.forward_message of the history loop or one of the kind-specific send
calls of _forward_single_message. Only successful deliveries are recorded. -/
inductive Call where
  | directForward (msgId : Nat)
  | send (msgId : Nat)
deriving Repr, DecidableEq

/-- The message id a delivery refers to. -/
def Call.msgId : Call → Nat
  | Call.directForward i => i
  | Call.send i => i

/-- A timestamped transport delivery; time is virtual (only sleeps advance
the clock). -/
structure TCall where
  time : ℚ
  call : Call
deriving Repr, DecidableEq

/-- The rate-limiter state threaded through forward_message_with_rate_limit:
the current virtual time and the batch window (batch_start_time,
batch_count) of the history run. -/
structure Pacing where
  now : ℚ
  batch_start_time : ℚ
  batch_count : Nat
deriving Repr, DecidableEq

/-- The waiting part of HistoryHandler.forward_message_with_rate_limit: when
batch_count has reached MESSAGES_PER_BATCH, sleep for the remainder of
BATCH_INTERVAL_SECONDS since the window opened (when any remains) and reset
the window; then sleep DELAY_PER_MESSAGE when batch_count > 0. -/
def rateLimitWait (cfg : Config) (p : Pacing) : Pacing :=
  let p1 :=
    if cfg.MESSAGES_PER_BATCH ≤ p.batch_count then
      let remaining := cfg.BATCH_INTERVAL_SECONDS - (p.now - p.batch_start_time)
      let now1 := if 0 < remaining then p.now + remaining else p.now
      { now := now1, batch_start_time := now1, batch_count := 0 }
    else p
  if 0 < p1.batch_count then { p1 with now := p1.now + cfg.DELAY_PER_MESSAGE } else p1

/-- HistoryHandler._forward_single_message: skip when the ledger already has
the id; otherwise deliver (one kind-specific send) and record the outcome in
the ledger — destination id and kind on success, the error text (with no
destination id, default kind) after a failure. -/
def forwardSingleMessage (env : Env) (db : DB) (m : Msg) (now : ℚ) :
    DB × List TCall :=
  if db.is_message_forwarded m.id then (db, [])
  else if env.send_ok m.id then
    ((db.add_forwarded_message m.id (some (env.dest_id m.id)) "text" none).2,
     [⟨now, Call.send m.id⟩])
  else
    (((db.log_error "TELEGRAM_ERROR" (env.err_text m.id) (some m.id)).add_forwarded_message
        m.id none "unknown" (some (env.err_text m.id))).2,
     [])

/-- The running state of one history loop of forward_historical_messages. -/
structure RunState where
  db : DB
  messages_forwarded : Nat
  pacing : Pacing
  trace : List TCall

/-- One iteration of the history loop of forward_historical_messages: the
direct bot.forward_message attempt; on its success the progress update, the
rate-limiter wait and the ledger-guarded _forward_single_message; on its
failure (TelegramError) only an error_log entry, and the loop continues. -/
def processHistMessage (env : Env) (s : RunState) (m : Msg) : RunState :=
  if env.direct_forward_ok m.id then
    let trace1 := s.trace ++ [⟨s.pacing.now, Call.directForward m.id⟩]
    let n := s.messages_forwarded + 1
    let db1 := s.db.update_forwarding_progress m.id n false
    let p1 := rateLimitWait env.config s.pacing
    let sent := forwardSingleMessage env db1 m p1.now
    { db := sent.1, messages_forwarded := n,
      pacing := { p1 with batch_count := p1.batch_count + 1 },
      trace := trace1 ++ sent.2 }
  else
    { s with db := s.db.log_error "HISTORY_FORWARDING_ERROR" (env.err_text m.id) (some m.id) }

/-- The fetch-and-loop part of forward_historical_messages: resume from the
persisted last_forwarded_message_id (0 when no checkpoint row exists), fetch
the history strictly after it in chronological order (iter_messages with
min_id exclusive, reverse=True) and run the loop. -/
def runBackfillLoop (env : Env) (db : DB) : RunState :=
  let lastId := ((db.get_forwarding_progress).map
      (fun p => p.last_forwarded_message_id)).getD 0
  (env.history.filter (fun m => lastId < m.id)).foldl (processHistMessage env)
    { db := db, messages_forwarded := 0,
      pacing := { now := 0, batch_start_time := 0, batch_count := 0 }, trace := [] }

/-- HistoryHandler.forward_historical_messages, returning the final database
and the timestamped trace of successful transport deliveries. Branches, in
the source's order: the persisted completion flag; the owner check through
the (spec-modelled) token lookup, whose missing row makes the subscript
raise into the outer exception handler; Telethon availability; the history
loop followed by the completion writes. -/
def forward_historical_messages (env : Env) (db : DB) : DB × List TCall :=
  if db.get_state "historical_forwarding_complete" = some "true" then (db, [])
  else
    match db.get_cloned_bot_by_token env.bot_token with
    | none => (db.log_error "HISTORY_FORWARDING_ERROR" "config lookup returned no row" none, [])
    | some cfg =>
      if cfg.owner_chat_id ≠ env.config.OWNER_ID then
        (db.set_state "historical_forwarding_complete" "true", [])
      else if env.telethonClientAvailable then
        let s := runBackfillLoop env db
        ((s.db.set_state "historical_forwarding_complete" "true").update_forwarding_progress
            0 s.messages_forwarded true,
         s.trace)
      else
        (db.set_state "historical_forwarding_complete" "true", [])

/-- Number of deliveries of a trace that fall in the half-open window
starting at t0 of the given length. -/
def callsInWindow (trace : List TCall) (t0 len : ℚ) : Nat :=
  (trace.filter (fun c => decide (t0 ≤ c.time) && decide (c.time < t0 + len))).length

/-! Helper lemmas about the ledger. -/

lemma add_forwarded_message_of_present (db : DB) (s : Nat) (d : Option Nat)
    (m : String) (e : Option String) (h : db.is_message_forwarded s = true) :
    db.add_forwarded_message s d m e = (false, db) := by
  simp only [DB.is_message_forwarded] at h
  simp [DB.add_forwarded_message, h]

lemma add_forwarded_message_of_fresh (db : DB) (s : Nat) (d : Option Nat)
    (m : String) (e : Option String) (h : db.is_message_forwarded s = false) :
    db.add_forwarded_message s d m e
      = (true, { db with forwarded_messages := ⟨s, d, m, e⟩ :: db.forwarded_messages }) := by
  simp only [DB.is_message_forwarded] at h
  simp [DB.add_forwarded_message, h]

lemma is_message_forwarded_add_self (db : DB) (s : Nat) (d : Option Nat)
    (m : String) (e : Option String) :
    ((db.add_forwarded_message s d m e).2).is_message_forwarded s = true := by
  by_cases h : db.is_message_forwarded s
  · rw [add_forwarded_message_of_present db s d m e h]; exact h
  · rw [add_forwarded_message_of_fresh db s d m e (by simpa using h)]
    simp [DB.is_message_forwarded]

lemma runRecordAttempts_of_present (db : DB) (s : Nat) (cs : List RecArgs)
    (h : db.is_message_forwarded s = true) :
    runRecordAttempts db s cs = (List.replicate cs.length false, db) := by
  induction cs with
  | nil => simp [runRecordAttempts]
  | cons c rest ih =>
      simp [runRecordAttempts, add_forwarded_message_of_present db s c.dst c.mtype c.err h, ih,
        List.replicate_succ]

lemma countRecords_of_fresh (db : DB) (s : Nat)
    (h : db.is_message_forwarded s = false) : db.countRecords s = 0 := by
  simp only [DB.is_message_forwarded, List.any_eq_false] at h
  simp only [DB.countRecords, List.length_eq_zero]
  exact List.filter_eq_nil_iff.mpr h

lemma countRecords_add_of_fresh (db : DB) (s : Nat) (d : Option Nat)
    (m : String) (e : Option String) (h : db.is_message_forwarded s = false) :
    ((db.add_forwarded_message s d m e).2).countRecords s = db.countRecords s + 1 := by
  rw [add_forwarded_message_of_fresh db s d m e h]
  simp [DB.countRecords]

lemma countRecords_runRecordAttempts_le (db : DB) (s : Nat) (cs : List RecArgs)
    (h : db.countRecords s ≤ 1) :
    (runRecordAttempts db s cs).2.countRecords s ≤ 1 := by
  induction cs generalizing db with
  | nil => simpa [runRecordAttempts] using h
  | cons c rest ih =>
      by_cases hp : db.is_message_forwarded s
      · simpa [runRecordAttempts, add_forwarded_message_of_present db s c.dst c.mtype c.err hp]
          using ih db h
      · have hf : db.is_message_forwarded s = false := by simpa using hp
        simp only [runRecordAttempts, add_forwarded_message_of_fresh db s c.dst c.mtype c.err hf]
        apply ih
        have h0 := countRecords_of_fresh db s hf
        have : ({ db with forwarded_messages := ⟨s, c.dst, c.mtype, c.err⟩ :: db.forwarded_messages } : DB).countRecords s = 1 := by
          simp [DB.countRecords]
          simpa [DB.countRecords] using h0
        simp [this]

/-- C1: for every sequence of Database.add_forwarded_message calls with the
same source_message_id on a ledger not yet holding that id, exactly the
first insert succeeds (True), every later call returns False and writes
nothing, and at all times the ledger holds at most one record per
source_message_id. -/
theorem c1_ledger_idempotent (db : DB) (srcId : Nat) (calls : List RecArgs)
    (hne : calls ≠ []) (hfresh : db.is_message_forwarded srcId = false) :
    (runRecordAttempts db srcId calls).1
        = true :: List.replicate (calls.length - 1) false
      ∧ (runRecordAttempts db srcId calls).2.countRecords srcId = 1
      ∧ (runRecordAttempts db srcId calls).2.forwarded_messages.length
          = db.forwarded_messages.length + 1
      ∧ ∀ pre : List RecArgs, (runRecordAttempts db srcId pre).2.countRecords srcId ≤ 1 := by
  obtain ⟨c, rest, rfl⟩ : ∃ c rest, calls = c :: rest := by
    cases calls with
    | nil => exact absurd rfl hne
    | cons c rest => exact ⟨c, rest, rfl⟩
  have hadd := add_forwarded_message_of_fresh db srcId c.dst c.mtype c.err hfresh
  set db1 : DB :=
    { db with forwarded_messages := ⟨srcId, c.dst, c.mtype, c.err⟩ :: db.forwarded_messages }
    with hdb1
  have hfwd1 : db1.is_message_forwarded srcId = true := by
    simp [hdb1, DB.is_message_forwarded]
  have hrest := runRecordAttempts_of_present db1 srcId rest hfwd1
  have hrun : runRecordAttempts db srcId (c :: rest)
      = (true :: List.replicate rest.length false, db1) := by
    simp [runRecordAttempts, hadd, hrest]
  refine ⟨?_, ?_, ?_, ?_⟩
  · simp [hrun]
  · rw [hrun]
    have := countRecords_add_of_fresh db srcId c.dst c.mtype c.err hfresh
    rw [hadd] at this
    rw [this, countRecords_of_fresh db srcId hfresh]
  · simp [hrun, hdb1]
  · intro pre
    exact countRecords_runRecordAttempts_le db srcId pre
      (by rw [countRecords_of_fresh db srcId hfresh]; exact Nat.zero_le 1)

/-- Witness for C1 at a concrete ledger and two attempts for id 1. -/
theorem c1_ledger_idempotent_witness :
    (runRecordAttempts
        { forwarded_messages := [], bot_state := [], forwarding_progress := none,
          error_log := [], cloned_bots := [] } 1
        [⟨some 10, "text", none⟩, ⟨none, "unknown", some "e"⟩]).1
        = true :: List.replicate 1 false
      ∧ (runRecordAttempts
        { forwarded_messages := [], bot_state := [], forwarding_progress := none,
          error_log := [], cloned_bots := [] } 1
        [⟨some 10, "text", none⟩, ⟨none, "unknown", some "e"⟩]).2.countRecords 1 = 1 := by
  have h := c1_ledger_idempotent
    { forwarded_messages := [], bot_state := [], forwarding_progress := none,
      error_log := [], cloned_bots := [] } 1
    [⟨some 10, "text", none⟩, ⟨none, "unknown", some "e"⟩]
    (by decide) (by decide)
  exact ⟨h.1, h.2.1⟩

/-! Concrete fixtures for the Backfill Engine claims. -/

/-- Config with MESSAGES_PER_BATCH 2, BATCH_INTERVAL_SECONDS 10 (so
DELAY_PER_MESSAGE 5) and OWNER_ID 1, the batchSize 2 / batchInterval 10 s
scenario of the spec. -/
def testConfig : Config := ⟨2, 10, 1⟩

/-- A cloned_bots row whose token is the worker's own and whose owner is the
configured owner. -/
def testRow : BotRow := ⟨1, "t", "-100", "-200", 1, "running", some 5⟩

/-- An otherwise empty database holding only the worker's own config row. -/
def dbFresh : DB := ⟨[], [], none, [], [testRow]⟩

/-- An environment where Telethon is fully available and every transport
call succeeds. -/
def baseEnv (hist : List Msg) : Env :=
  ⟨testConfig, "t", true, true, true, hist,
   fun _ => true, fun _ => true, fun i => 100 + i, fun _ => "err"⟩

/-! Helper lemmas about the engine's top-level branches. -/

lemma get_state_set_state_same (db : DB) (k v : String) :
    (db.set_state k v).get_state k = some v := by
  simp [DB.set_state, DB.get_state]

lemma get_state_update_forwarding_progress (db : DB) (a b : Nat) (c : Bool)
    (k : String) :
    (db.update_forwarding_progress a b c).get_state k = db.get_state k := rfl

lemma forward_historical_messages_of_complete (env : Env) (db : DB)
    (h : db.get_state "historical_forwarding_complete" = some "true") :
    forward_historical_messages env db = (db, []) := by
  simp [forward_historical_messages, h]

lemma forward_historical_messages_of_run (env : Env) (db : DB) (cfg : BotRow)
    (h1 : db.get_state "historical_forwarding_complete" ≠ some "true")
    (h2 : db.get_cloned_bot_by_token env.bot_token = some cfg)
    (h3 : cfg.owner_chat_id = env.config.OWNER_ID)
    (h4 : env.telethonClientAvailable = true) :
    forward_historical_messages env db
      = (((runBackfillLoop env db).db.set_state "historical_forwarding_complete"
            "true").update_forwarding_progress 0
            (runBackfillLoop env db).messages_forwarded true,
         (runBackfillLoop env db).trace) := by
  simp [forward_historical_messages, h1, h2, h3, h4]

/-- C2: the claim says the engine delivers each fetched not-yet-recorded
message exactly once; on a single fresh history message whose transport
calls all succeed, the run makes two transport sends for that message (the
unguarded direct bot.forward_message and then the copy sent by
_forward_single_message). -/
theorem c2_backfill_delivers_twice :
    (forward_historical_messages (baseEnv [⟨1⟩]) dbFresh).2
        = [⟨0, Call.directForward 1⟩, ⟨0, Call.send 1⟩]
      ∧ (((forward_historical_messages (baseEnv [⟨1⟩]) dbFresh).2).filter
          (fun c => c.call.msgId == 1)).length = 2 := by
  constructor <;> decide

/-- C3: when the persisted state marks historical forwarding complete, the
engine returns immediately: the database is untouched (zero ledger writes)
and no transport delivery happens. -/
theorem c3_completion_terminality (env : Env) (db : DB)
    (h : db.get_state "historical_forwarding_complete" = some "true") :
    forward_historical_messages env db = (db, []) :=
  forward_historical_messages_of_complete env db h

/-- An already-complete database for the C3 witness. -/
def dbDone : DB := ⟨[], [("historical_forwarding_complete", "true")], none, [], [testRow]⟩

/-- Witness for C3 on a concrete complete database. -/
theorem c3_completion_terminality_witness :
    forward_historical_messages (baseEnv [⟨1⟩, ⟨2⟩]) dbDone = (dbDone, []) :=
  c3_completion_terminality (baseEnv [⟨1⟩, ⟨2⟩]) dbDone (by decide)

/-- A database whose ledger already records source message 1 and whose
checkpoint is last id 0, not complete. -/
def dbLedgered : DB := ⟨[⟨1, some 100, "text", none⟩], [], some ⟨0, 1, false⟩, [], [testRow]⟩

/-- C4: the claim says a resumed run never re-delivers a message already in
the ledger; with checkpoint N = 0 and history message 1 already ledgered,
the run still delivers it once, through the unguarded direct
bot.forward_message. -/
theorem c4_redelivers_ledgered_message :
    dbLedgered.is_message_forwarded 1 = true
      ∧ (forward_historical_messages (baseEnv [⟨1⟩]) dbLedgered).2
          = [⟨0, Call.directForward 1⟩] := by
  constructor <;> decide

/-- C5: the claim says at most batchSize messages are delivered in any
batchInterval window; with batchSize 2 and batchInterval 10 s, three fresh
history messages produce five transport deliveries inside the window
[0, 10) — the direct forwards are not paced. -/
theorem c5_pacing_window_exceeded :
    callsInWindow (forward_historical_messages (baseEnv [⟨1⟩, ⟨2⟩, ⟨3⟩]) dbFresh).2
        0 testConfig.BATCH_INTERVAL_SECONDS = 5
      ∧ testConfig.MESSAGES_PER_BATCH < 5 := by
  have hrun := forward_historical_messages_of_run (baseEnv [⟨1⟩, ⟨2⟩, ⟨3⟩]) dbFresh testRow
    (by decide) (by decide) (by decide) (by decide)
  have htr : (runBackfillLoop (baseEnv [⟨1⟩, ⟨2⟩, ⟨3⟩]) dbFresh).trace
      = [⟨0, Call.directForward 1⟩, ⟨0, Call.send 1⟩, ⟨0, Call.directForward 2⟩,
         ⟨5, Call.send 2⟩, ⟨5, Call.directForward 3⟩, ⟨10, Call.send 3⟩] := by
    norm_num [runBackfillLoop, processHistMessage, rateLimitWait, forwardSingleMessage,
      baseEnv, dbFresh, testConfig, testRow, Config.DELAY_PER_MESSAGE,
      DB.get_forwarding_progress, DB.is_message_forwarded, DB.add_forwarded_message,
      DB.update_forwarding_progress]
  refine ⟨?_, by decide⟩
  rw [hrun, htr]
  norm_num [callsInWindow, testConfig, List.filter]

/-- C6: whenever no privileged transport is available — the worker is not
owned by the configured owner, or the Telethon client is unusable
(credentials unset, unauthorized or unable to connect) — the engine sets the
persisted completion flag and returns normally, with zero transport
deliveries and zero ledger writes. -/
theorem c6_vacuous_completion (env : Env) (db : DB) (cfg : BotRow)
    (h1 : db.get_state "historical_forwarding_complete" ≠ some "true")
    (h2 : db.get_cloned_bot_by_token env.bot_token = some cfg)
    (h3 : cfg.owner_chat_id ≠ env.config.OWNER_ID
          ∨ env.telethonClientAvailable = false) :
    forward_historical_messages env db
        = (db.set_state "historical_forwarding_complete" "true", [])
      ∧ (forward_historical_messages env db).1.get_state
          "historical_forwarding_complete" = some "true"
      ∧ (forward_historical_messages env db).1.forwarded_messages
          = db.forwarded_messages := by
  have hmain : forward_historical_messages env db
      = (db.set_state "historical_forwarding_complete" "true", []) := by
    by_cases howner : cfg.owner_chat_id = env.config.OWNER_ID
    · have hav : env.telethonClientAvailable = false := by
        rcases h3 with h3 | h3
        · exact absurd howner h3
        · exact h3
      simp [forward_historical_messages, h1, h2, howner, hav]
    · simp [forward_historical_messages, h1, h2, howner]
  refine ⟨hmain, ?_, ?_⟩
  · rw [hmain]; exact get_state_set_state_same db _ _
  · rw [hmain]; rfl

/-- An environment whose Telethon credentials are unset. -/
def envNoCreds (hist : List Msg) : Env := { baseEnv hist with telethon_creds_set := false }

/-- Witness for C6: credentials unset on a fresh database. -/
theorem c6_vacuous_completion_witness :
    forward_historical_messages (envNoCreds [⟨1⟩]) dbFresh
        = (dbFresh.set_state "historical_forwarding_complete" "true", [])
      ∧ (forward_historical_messages (envNoCreds [⟨1⟩]) dbFresh).1.get_state
          "historical_forwarding_complete" = some "true" := by
  have h := c6_vacuous_completion (envNoCreds [⟨1⟩]) dbFresh testRow
    (by decide) (by decide) (Or.inr (by decide))
  exact ⟨h.1, h.2.1⟩

/-- An environment where the direct bot.forward_message fails for message 1
only; every other transport call succeeds. -/
def envDirectFails : Env :=
  { baseEnv [⟨1⟩, ⟨2⟩] with direct_forward_ok := fun i => i != 1 }

/-- C7: the claim says every failed delivery is ledgered with its error; when
the direct bot.forward_message fails for message 1, the failure is only
written to the error log, no ForwardRecord for id 1 is created, and the loop
continues with message 2 (which is delivered and ledgered). -/
theorem c7_direct_failure_not_ledgered :
    (forward_historical_messages envDirectFails dbFresh).1.error_log
        = [⟨"HISTORY_FORWARDING_ERROR", "err", some 1⟩]
      ∧ (forward_historical_messages envDirectFails dbFresh).1.is_message_forwarded 1 = false
      ∧ (forward_historical_messages envDirectFails dbFresh).1.is_message_forwarded 2 = true := by
  refine ⟨?_, ?_, ?_⟩ <;> decide

/-- A database whose checkpoint is last id 5, 7 forwarded, not complete. -/
def dbCheckpoint5 : DB := ⟨[], [], some ⟨5, 7, false⟩, [], [testRow]⟩

/-- Counterexample to C10: a run that finishes by forced completion (no
privileged transport) leaves the checkpoint row untouched — the persisted
lastProcessedMessageId stays 5 instead of being overwritten to 0, although
the completion flag is set. -/
theorem c10_forced_completion_keeps_checkpoint :
    (forward_historical_messages (envNoCreds []) dbCheckpoint5).1.get_state
        "historical_forwarding_complete" = some "true"
      ∧ (forward_historical_messages (envNoCreds []) dbCheckpoint5).1.forwarding_progress
          = some ⟨5, 7, false⟩
      ∧ (5 : Nat) ≠ 0 := by
  refine ⟨?_, ?_, ?_⟩ <;> decide

/-- C10 as amended: when a run finishes by exhausting the fetched history,
the checkpoint it persists alongside completion has lastProcessedMessageId
overwritten to 0, and only the persisted completion flag prevents a full
re-scan — any later invocation on the resulting database returns
immediately. When completion is forced by a missing privileged transport,
only the flag is written and the checkpoint row is left unchanged. -/
theorem c10_completion_resets_checkpoint (env : Env) (db : DB) (cfg : BotRow)
    (h1 : db.get_state "historical_forwarding_complete" ≠ some "true")
    (h2 : db.get_cloned_bot_by_token env.bot_token = some cfg)
    (h3 : cfg.owner_chat_id = env.config.OWNER_ID)
    (h4 : env.telethonClientAvailable = true) :
    ∃ n, (forward_historical_messages env db).1.forwarding_progress
          = some ⟨0, n, true⟩
      ∧ (forward_historical_messages env db).1.get_state
          "historical_forwarding_complete" = some "true"
      ∧ ∀ env2 : Env, forward_historical_messages env2
          (forward_historical_messages env db).1
            = ((forward_historical_messages env db).1, []) := by
  have hrun : forward_historical_messages env db
      = (((runBackfillLoop env db).db.set_state "historical_forwarding_complete"
            "true").update_forwarding_progress 0
            (runBackfillLoop env db).messages_forwarded true,
         (runBackfillLoop env db).trace) := by
    simp [forward_historical_messages, h1, h2, h3, h4]
  refine ⟨(runBackfillLoop env db).messages_forwarded, ?_, ?_, ?_⟩
  · rw [hrun]; rfl
  · rw [hrun, get_state_update_forwarding_progress]
    exact get_state_set_state_same _ _ _
  · intro env2
    apply forward_historical_messages_of_complete
    rw [hrun, get_state_update_forwarding_progress]
    exact get_state_set_state_same _ _ _

/-! The Process Supervisor: BotManager of manager.py. -/

/-- A tracked subprocess handle: its pid and the result of poll() — none
while the process is alive, the exit code once it has terminated. -/
structure Proc where
  pid : Nat
  exit_code : Option Int
deriving Repr, DecidableEq

/-- The observable logger output of the Supervisor. -/
inductive LogEvent where
  | alreadyRunningWarning (botId : Nat)
  | spawned (botId : Nat) (pid : Nat)
  | spawnFailed (botId : Nat)
  | terminated (botId : Nat) (code : Int)
  | missingConfigError (botId : Nat)
deriving Repr, DecidableEq

/-- BotManager state: the running_bots dictionary (bot id to process handle,
keys unique) together with the logger output produced so far. -/
structure Manager where
  running_bots : List (Nat × Proc)
  logs : List LogEvent
deriving Repr, DecidableEq

/-- The tracked process handle of a bot id, when any. -/
def Manager.findProc (mgr : Manager) (botId : Nat) : Option Proc :=
  (mgr.running_bots.find? (fun p => p.1 == botId)).map (fun p => p.2)

/-- The guard of BotManager.spawn_bot_process: bot_id in running_bots and
poll() is None. -/
def Manager.tracked_alive (mgr : Manager) (botId : Nat) : Bool :=
  match mgr.findProc botId with
  | some pr => pr.exit_code.isNone
  | none => false

/-- Number of tracked processes for one bot id. -/
def Manager.proc_count (mgr : Manager) (botId : Nat) : Nat :=
  (mgr.running_bots.filter (fun p => p.1 == botId)).length

/-- BotManager.spawn_bot_process. The launch argument is the outcome of
subprocess.Popen: the new pid on success, none when it raises. A live
tracked process makes the call a warned no-op; otherwise on success the
handle is tracked and status running with the pid is written, and on launch
failure status error is written (the exception is caught, the Supervisor
survives). -/
def spawn_bot_process (launch : Option Nat) (db : DB) (mgr : Manager)
    (cfg : BotRow) : DB × Manager :=
  if mgr.tracked_alive cfg.id then
    (db, { mgr with logs := mgr.logs ++ [LogEvent.alreadyRunningWarning cfg.id] })
  else
    match launch with
    | some pid =>
        (db.update_cloned_bot_status cfg.id "running" (some pid),
         { running_bots := (cfg.id, ⟨pid, none⟩) ::
             mgr.running_bots.filter (fun p => p.1 != cfg.id),
           logs := mgr.logs ++ [LogEvent.spawned cfg.id pid] })
    | none =>
        (db.update_cloned_bot_status cfg.id "error" none,
         { mgr with logs := mgr.logs ++ [LogEvent.spawnFailed cfg.id] })

/-- One bot id of one BotManager.monitor_bots poll tick: skip ids no longer
tracked or still alive; a terminated process is removed from tracking, then
its config is read back — when present the termination is logged and a
respawn attempted, when absent the missing configuration is logged and the
loop goes on. -/
def monitorStep (launch : Nat → Option Nat) (acc : DB × Manager)
    (botId : Nat) : DB × Manager :=
  match acc.2.running_bots.find? (fun p => p.1 == botId) with
  | none => acc
  | some entry =>
    match entry.2.exit_code with
    | none => acc
    | some code =>
      let mgr1 : Manager :=
        { acc.2 with running_bots := acc.2.running_bots.filter (fun p => p.1 != botId) }
      match acc.1.get_cloned_bot_by_id botId with
      | some cfg =>
          spawn_bot_process (launch botId) acc.1
            { mgr1 with logs := mgr1.logs ++ [LogEvent.terminated botId code] } cfg
      | none =>
          (acc.1, { mgr1 with logs := mgr1.logs ++ [LogEvent.missingConfigError botId] })

/-- One poll tick of BotManager.monitor_bots: iterate over a snapshot of the
tracked bot ids (bots_to_check = list(running_bots.keys())). -/
def monitor_bots_tick (launch : Nat → Option Nat) (db : DB) (mgr : Manager) :
    DB × Manager :=
  (mgr.running_bots.map (fun p => p.1)).foldl (monitorStep launch) (db, mgr)

/-! Helper lemmas about the store update. -/

lemma statusUpdate_id (s : String) (pid : Option Nat) (r : BotRow) :
    (statusUpdate s pid r).id = r.id := by
  cases pid <;> rfl

lemma get_cloned_bot_by_id_update_same (db : DB) (i : Nat) (s : String)
    (pid : Option Nat) :
    (db.update_cloned_bot_status i s pid).get_cloned_bot_by_id i
      = (db.get_cloned_bot_by_id i).map (statusUpdate s pid) := by
  simp only [DB.update_cloned_bot_status, DB.get_cloned_bot_by_id]
  induction db.cloned_bots with
  | nil => rfl
  | cons r rest ih =>
      cases hb : (r.id == i) with
      | false =>
          rw [List.map_cons, if_neg (by simp [hb])]
          rw [List.find?_cons_of_neg _ (by simp [hb]),
              List.find?_cons_of_neg _ (by simp [hb])]
          exact ih
      | true =>
          rw [List.map_cons, if_pos (by simp [hb])]
          rw [List.find?_cons_of_pos _ (by simp [statusUpdate_id, hb]),
              List.find?_cons_of_pos _ (by simp [hb])]
          rfl

lemma get_cloned_bot_by_id_update_ne (db : DB) (i j : Nat) (s : String)
    (pid : Option Nat) (h : j ≠ i) :
    (db.update_cloned_bot_status i s pid).get_cloned_bot_by_id j
      = db.get_cloned_bot_by_id j := by
  simp only [DB.update_cloned_bot_status, DB.get_cloned_bot_by_id]
  induction db.cloned_bots with
  | nil => rfl
  | cons r rest ih =>
      cases hb : (r.id == i) with
      | false =>
          rw [List.map_cons, if_neg (by simp [hb])]
          cases hj : (r.id == j) with
          | true =>
              rw [List.find?_cons_of_pos _ (by simp [hj]),
                  List.find?_cons_of_pos _ (by simp [hj])]
          | false =>
              rw [List.find?_cons_of_neg _ (by simp [hj]),
                  List.find?_cons_of_neg _ (by simp [hj])]
              exact ih
      | true =>
          have hj : (r.id == j) = false := by
            have : r.id = i := by simpa using hb
            simp [this, Ne.symm h]
          rw [List.map_cons, if_pos (by simp [hb])]
          rw [List.find?_cons_of_neg _ (by simp [statusUpdate_id, hj]),
              List.find?_cons_of_neg _ (by simp [hj])]
          exact ih

/-- C8: spawn on a worker id with a live tracked process is a warned no-op
(no store write, tracked processes unchanged, so the process count for that
id stays what it was); otherwise a successful launch tracks the new live
handle and writes status running with the pid to the store row, and a
failed launch writes status error while tracking stays unchanged — the
Supervisor returns normally in every case. -/
theorem c8_spawn_contract (db : DB) (mgr : Manager) (cfg : BotRow)
    (launch : Option Nat) :
    (mgr.tracked_alive cfg.id = true →
        spawn_bot_process launch db mgr cfg
            = (db, { mgr with logs := mgr.logs ++ [LogEvent.alreadyRunningWarning cfg.id] })
          ∧ (spawn_bot_process launch db mgr cfg).2.proc_count cfg.id
              = mgr.proc_count cfg.id)
      ∧ (∀ pid, mgr.tracked_alive cfg.id = false → launch = some pid →
          (spawn_bot_process launch db mgr cfg).2.tracked_alive cfg.id = true
            ∧ (spawn_bot_process launch db mgr cfg).2.findProc cfg.id = some ⟨pid, none⟩
            ∧ ∀ row, db.get_cloned_bot_by_id cfg.id = some row →
                (spawn_bot_process launch db mgr cfg).1.get_cloned_bot_by_id cfg.id
                  = some { row with status := "running", process_id := some pid })
      ∧ (mgr.tracked_alive cfg.id = false → launch = none →
          (spawn_bot_process launch db mgr cfg).1.get_cloned_bot_by_id cfg.id
              = (db.get_cloned_bot_by_id cfg.id).map (fun r => { r with status := "error" })
            ∧ (spawn_bot_process launch db mgr cfg).2.running_bots = mgr.running_bots) := by
  refine ⟨?_, ?_, ?_⟩
  · intro halive
    constructor
    · simp [spawn_bot_process, halive]
    · simp [spawn_bot_process, halive, Manager.proc_count]
  · intro pid hdead hlaunch
    subst hlaunch
    refine ⟨?_, ?_, ?_⟩
    · simp only [spawn_bot_process, hdead, Bool.false_eq_true, if_false]
      simp [Manager.tracked_alive, Manager.findProc, List.find?]
    · simp only [spawn_bot_process, hdead, Bool.false_eq_true, if_false]
      simp [Manager.findProc, List.find?]
    · intro row hrow
      simp only [spawn_bot_process, hdead, Bool.false_eq_true, if_false]
      rw [get_cloned_bot_by_id_update_same, hrow]
      simp [statusUpdate]
  · intro hdead hlaunch
    subst hlaunch
    constructor
    · simp only [spawn_bot_process, hdead, Bool.false_eq_true, if_false]
      rw [get_cloned_bot_by_id_update_same]
      cases db.get_cloned_bot_by_id cfg.id <;> simp [statusUpdate]
    · simp [spawn_bot_process, hdead]

/-! Frame lemmas: one monitor step for bot id i touches no other bot id. -/

lemma find_key_filter_ne (l : List (Nat × Proc)) (i j : Nat) (h : j ≠ i) :
    (l.filter (fun p => p.1 != i)).find? (fun p => p.1 == j)
      = l.find? (fun p => p.1 == j) := by
  induction l with
  | nil => rfl
  | cons x rest ih =>
      cases hx : (x.1 == j) with
      | true =>
          have hxj : x.1 = j := by simpa using hx
          have hxi : (x.1 != i) = true := by simp [hxj, h]
          rw [List.filter_cons, if_pos hxi]
          simp only [List.find?, hx]
      | false =>
          by_cases hxi : (x.1 != i) = true
          · rw [List.filter_cons, if_pos hxi]
            simp only [List.find?, hx]
            exact ih
          · rw [List.filter_cons, if_neg hxi]
            simp only [List.find?, hx]
            exact ih

lemma find_key_filter_self (l : List (Nat × Proc)) (i : Nat) :
    (l.filter (fun p => p.1 != i)).find? (fun p => p.1 == i) = none := by
  induction l with
  | nil => rfl
  | cons x rest ih =>
      by_cases hx : x.1 = i
      · rw [List.filter_cons, if_neg (by simp [hx])]
        exact ih
      · have hxi : (x.1 == i) = false := by simp [hx]
        rw [List.filter_cons, if_pos (by simp [hx])]
        simp only [List.find?, hxi]
        exact ih

lemma spawn_bot_process_frame (launch : Option Nat) (db : DB) (mgr : Manager)
    (cfg : BotRow) (j : Nat) (h : j ≠ cfg.id) :
    (spawn_bot_process launch db mgr cfg).1.get_cloned_bot_by_id j
        = db.get_cloned_bot_by_id j
      ∧ (spawn_bot_process launch db mgr cfg).2.running_bots.find?
          (fun p => p.1 == j) = mgr.running_bots.find? (fun p => p.1 == j)
      ∧ ∃ l, (spawn_bot_process launch db mgr cfg).2.logs = mgr.logs ++ l := by
  by_cases halive : mgr.tracked_alive cfg.id
  · have hstep : spawn_bot_process launch db mgr cfg
        = (db, { mgr with logs := mgr.logs ++ [LogEvent.alreadyRunningWarning cfg.id] }) := by
      unfold spawn_bot_process; rw [if_pos halive]
    rw [hstep]
    exact ⟨rfl, rfl, ⟨_, rfl⟩⟩
  · cases launch with
    | some pid =>
        have hstep : spawn_bot_process (some pid) db mgr cfg
            = (db.update_cloned_bot_status cfg.id "running" (some pid),
               { running_bots := (cfg.id, ⟨pid, none⟩) ::
                   mgr.running_bots.filter (fun p => p.1 != cfg.id),
                 logs := mgr.logs ++ [LogEvent.spawned cfg.id pid] }) := by
          unfold spawn_bot_process; rw [if_neg halive]
        rw [hstep]
        refine ⟨get_cloned_bot_by_id_update_ne db cfg.id j _ _ h, ?_, ⟨_, rfl⟩⟩
        have hcj : (cfg.id == j) = false := by simp [Ne.symm h]
        simp only [List.find?, hcj]
        exact find_key_filter_ne mgr.running_bots cfg.id j h
    | none =>
        have hstep : spawn_bot_process none db mgr cfg
            = (db.update_cloned_bot_status cfg.id "error" none,
               { mgr with logs := mgr.logs ++ [LogEvent.spawnFailed cfg.id] }) := by
          unfold spawn_bot_process; rw [if_neg halive]
        rw [hstep]
        exact ⟨get_cloned_bot_by_id_update_ne db cfg.id j _ _ h, rfl, ⟨_, rfl⟩⟩

lemma monitorStep_frame (launch : Nat → Option Nat) (acc : DB × Manager)
    (i j : Nat) (h : j ≠ i) :
    (monitorStep launch acc i).1.get_cloned_bot_by_id j
        = acc.1.get_cloned_bot_by_id j
      ∧ (monitorStep launch acc i).2.running_bots.find? (fun p => p.1 == j)
          = acc.2.running_bots.find? (fun p => p.1 == j)
      ∧ ∃ l, (monitorStep launch acc i).2.logs = acc.2.logs ++ l := by
  cases hf : acc.2.running_bots.find? (fun p => p.1 == i) with
  | none =>
      have hstep : monitorStep launch acc i = acc := by
        unfold monitorStep; simp only [hf]
      rw [hstep]
      exact ⟨rfl, rfl, ⟨[], by simp⟩⟩
  | some entry =>
    cases he : entry.2.exit_code with
    | none =>
        have hstep : monitorStep launch acc i = acc := by
          unfold monitorStep; simp only [hf, he]
        rw [hstep]
        exact ⟨rfl, rfl, ⟨[], by simp⟩⟩
    | some code =>
      cases hc : acc.1.get_cloned_bot_by_id i with
      | none =>
          have hstep : monitorStep launch acc i
              = (acc.1,
                 { running_bots := acc.2.running_bots.filter (fun p => p.1 != i),
                   logs := acc.2.logs ++ [LogEvent.missingConfigError i] }) := by
            unfold monitorStep; simp only [hf, he, hc]
          rw [hstep]
          exact ⟨rfl, find_key_filter_ne acc.2.running_bots i j h, ⟨_, rfl⟩⟩
      | some cfg =>
          have hstep : monitorStep launch acc i
              = spawn_bot_process (launch i) acc.1
                  { running_bots := acc.2.running_bots.filter (fun p => p.1 != i),
                    logs := acc.2.logs ++ [LogEvent.terminated i code] } cfg := by
            unfold monitorStep; simp only [hf, he, hc]
          have hcfg : cfg.id = i := by
            have h0 : acc.1.cloned_bots.find? (fun r => r.id == i) = some cfg := hc
            simpa using List.find?_some h0
          obtain ⟨hdb, hfind, l, hlogs⟩ := spawn_bot_process_frame (launch i) acc.1
            { running_bots := acc.2.running_bots.filter (fun p => p.1 != i),
              logs := acc.2.logs ++ [LogEvent.terminated i code] } cfg j
            (by rw [hcfg]; exact h)
          rw [hstep]
          refine ⟨hdb, ?_, ?_⟩
          · rw [hfind]
            exact find_key_filter_ne acc.2.running_bots i j h
          · exact ⟨LogEvent.terminated i code :: l, by simpa using hlogs⟩

lemma foldl_monitorStep_frame (launch : Nat → Option Nat) (L : List Nat)
    (acc : DB × Manager) (j : Nat) (hj : j ∉ L) :
    (L.foldl (monitorStep launch) acc).1.get_cloned_bot_by_id j
        = acc.1.get_cloned_bot_by_id j
      ∧ (L.foldl (monitorStep launch) acc).2.running_bots.find?
          (fun p => p.1 == j) = acc.2.running_bots.find? (fun p => p.1 == j)
      ∧ ∃ l, (L.foldl (monitorStep launch) acc).2.logs = acc.2.logs ++ l := by
  induction L generalizing acc with
  | nil => exact ⟨rfl, rfl, ⟨[], by simp⟩⟩
  | cons i rest ih =>
      have hji : j ≠ i := fun e => hj (by simp [e])
      have hjrest : j ∉ rest := fun e => hj (List.mem_cons_of_mem i e)
      obtain ⟨hdb1, hfind1, l1, hlogs1⟩ := monitorStep_frame launch acc i j hji
      obtain ⟨hdb2, hfind2, l2, hlogs2⟩ := ih (monitorStep launch acc i) hjrest
      refine ⟨?_, ?_, ?_⟩
      · rw [List.foldl_cons, hdb2, hdb1]
      · rw [List.foldl_cons, hfind2, hfind1]
      · exact ⟨l1 ++ l2, by rw [List.foldl_cons, hlogs2, hlogs1, List.append_assoc]⟩

/-- C9: on a monitor poll tick, a tracked worker process that has exited is
respawned when its configuration still exists — afterwards it is tracked
alive again and its store row reads status running with the fresh pid — and
when the configuration is gone the process is dropped from tracking with a
logged error while the tick completes normally and processes the remaining
workers. -/
theorem c9_monitor_respawns_exited (launch : Nat → Option Nat) (db : DB)
    (mgr : Manager) (botId : Nat) (pr : Proc) (code : Int)
    (hnd : (mgr.running_bots.map (fun p => p.1)).Nodup)
    (hfind : mgr.running_bots.find? (fun p => p.1 == botId) = some (botId, pr))
    (hexit : pr.exit_code = some code) :
    (∀ cfg pid, db.get_cloned_bot_by_id botId = some cfg →
        launch botId = some pid →
        (monitor_bots_tick launch db mgr).2.tracked_alive botId = true
          ∧ (monitor_bots_tick launch db mgr).1.get_cloned_bot_by_id botId
              = some { cfg with status := "running", process_id := some pid })
      ∧ (db.get_cloned_bot_by_id botId = none →
          (monitor_bots_tick launch db mgr).2.findProc botId = none
            ∧ LogEvent.missingConfigError botId
                ∈ (monitor_bots_tick launch db mgr).2.logs) := by
  have hmem : botId ∈ mgr.running_bots.map (fun p => p.1) :=
    List.mem_map.mpr ⟨(botId, pr), List.mem_of_find?_eq_some hfind, rfl⟩
  obtain ⟨l1, l2, hsplit⟩ := List.append_of_mem hmem
  have hnd2 : (botId :: (l1 ++ l2)).Nodup :=
    List.nodup_middle.mp (by rw [← hsplit]; exact hnd)
  have hb1 : botId ∉ l1 := fun e =>
    (List.nodup_cons.mp hnd2).1 (List.mem_append.mpr (Or.inl e))
  have hb2 : botId ∉ l2 := fun e =>
    (List.nodup_cons.mp hnd2).1 (List.mem_append.mpr (Or.inr e))
  have htick : monitor_bots_tick launch db mgr
      = l2.foldl (monitorStep launch)
          (monitorStep launch (l1.foldl (monitorStep launch) (db, mgr)) botId) := by
    rw [monitor_bots_tick, hsplit, List.foldl_append, List.foldl_cons]
  obtain ⟨hdbA, hfindA, lA, hlogsA⟩ := foldl_monitorStep_frame launch l1 (db, mgr) botId hb1
  set acc1 := l1.foldl (monitorStep launch) (db, mgr) with hacc1
  have hfindacc : acc1.2.running_bots.find? (fun p => p.1 == botId)
      = some (botId, pr) := by rw [hfindA]; exact hfind
  obtain ⟨hdbB, hfindB, lB, hlogsB⟩ :=
    foldl_monitorStep_frame launch l2 (monitorStep launch acc1 botId) botId hb2
  constructor
  · intro cfg pid hc hl
    have hdbacc : acc1.1.get_cloned_bot_by_id botId = some cfg := by
      rw [hdbA]; exact hc
    have hcfg : cfg.id = botId := by
      have h0 : db.cloned_bots.find? (fun r => r.id == botId) = some cfg := hc
      simpa using List.find?_some h0
    have hstep : monitorStep launch acc1 botId
        = spawn_bot_process (launch botId) acc1.1
            { running_bots := acc1.2.running_bots.filter (fun p => p.1 != botId),
              logs := acc1.2.logs ++ [LogEvent.terminated botId code] } cfg := by
      unfold monitorStep
      simp only [hfindacc, hexit, hdbacc]
    have hdead : Manager.tracked_alive
        { running_bots := acc1.2.running_bots.filter (fun p => p.1 != botId),
          logs := acc1.2.logs ++ [LogEvent.terminated botId code] } cfg.id = false := by
      rw [hcfg]
      show (match Option.map (fun p => p.2) (List.find? (fun p => p.1 == botId)
          (List.filter (fun p => p.1 != botId) acc1.2.running_bots)) with
        | some pr => pr.exit_code.isNone
        | none => false) = false
      rw [find_key_filter_self]
      rfl
    have hspawn : spawn_bot_process (launch botId) acc1.1
        { running_bots := acc1.2.running_bots.filter (fun p => p.1 != botId),
          logs := acc1.2.logs ++ [LogEvent.terminated botId code] } cfg
        = (acc1.1.update_cloned_bot_status cfg.id "running" (some pid),
           { running_bots := (cfg.id, ⟨pid, none⟩) ::
               (acc1.2.running_bots.filter (fun p => p.1 != botId)).filter
                 (fun p => p.1 != cfg.id),
             logs := (acc1.2.logs ++ [LogEvent.terminated botId code])
               ++ [LogEvent.spawned cfg.id pid] }) := by
      unfold spawn_bot_process
      rw [hl, if_neg (by simp [hdead])]
    constructor
    · have hfound : (l2.foldl (monitorStep launch)
          (monitorStep launch acc1 botId)).2.running_bots.find?
            (fun p => p.1 == botId) = some (cfg.id, ⟨pid, none⟩) := by
        rw [hfindB, hstep, hspawn]
        have hpos : (cfg.id == botId) = true := by rw [hcfg]; simp
        simp only [List.find?, hpos]
      rw [htick]
      simp [Manager.tracked_alive, Manager.findProc, hfound]
    · rw [htick, hdbB, hstep, hspawn]
      have hgoal : (acc1.1.update_cloned_bot_status cfg.id "running"
          (some pid)).get_cloned_bot_by_id botId
            = some { cfg with status := "running", process_id := some pid } := by
        rw [← hcfg, get_cloned_bot_by_id_update_same, hcfg, hdbacc]
        simp [statusUpdate, hcfg]
      exact hgoal
  · intro hc
    have hdbacc : acc1.1.get_cloned_bot_by_id botId = none := by
      rw [hdbA]; exact hc
    have hstep : monitorStep launch acc1 botId
        = (acc1.1,
           { running_bots := acc1.2.running_bots.filter (fun p => p.1 != botId),
             logs := acc1.2.logs ++ [LogEvent.missingConfigError botId] }) := by
      unfold monitorStep
      simp only [hfindacc, hexit, hdbacc]
    constructor
    · rw [htick]
      unfold Manager.findProc
      rw [hfindB, hstep]
      simp [find_key_filter_self]
    · rw [htick, hlogsB, hstep]
      simp

/-- A manager tracking an exited process (pid 42, exit code 0) for bot 1,
for the C9 witness. -/
def mgrExited : Manager := ⟨[(1, ⟨42, some 0⟩)], []⟩

/-- Witness for C9: bot 1 exited with code 0, its config row still exists,
and the relaunch hands out pid 77. -/
theorem c9_monitor_respawns_exited_witness :
    (monitor_bots_tick (fun _ => some 77) dbFresh mgrExited).2.tracked_alive 1 = true
      ∧ (monitor_bots_tick (fun _ => some 77) dbFresh mgrExited).1.get_cloned_bot_by_id 1
          = some { testRow with status := "running", process_id := some 77 } :=
  (c9_monitor_respawns_exited (fun _ => some 77) dbFresh mgrExited 1 ⟨42, some 0⟩ 0
      (by decide) (by decide) rfl).1 testRow 77 (by decide) rfl

/-- A manager tracking a live process for bot 1, for the C8 witness. -/
def mgrAlive : Manager := ⟨[(1, ⟨42, none⟩)], []⟩

/-- Witness for C8: the no-op branch on a live tracked process, and the
launch branch on an untracked id. -/
theorem c8_spawn_contract_witness :
    (spawn_bot_process (some 99) dbFresh mgrAlive testRow
        = (dbFresh, { mgrAlive with logs := [LogEvent.alreadyRunningWarning 1] })
      ∧ (spawn_bot_process (some 99) dbFresh mgrAlive testRow).2.proc_count 1
          = mgrAlive.proc_count 1)
      ∧ (spawn_bot_process (some 99) dbFresh ⟨[], []⟩ testRow).2.tracked_alive 1 = true := by
  have h1 := (c8_spawn_contract dbFresh mgrAlive testRow (some 99)).1 (by decide)
  have h2 := ((c8_spawn_contract dbFresh ⟨[], []⟩ testRow (some 99)).2.1 99
    (by decide) rfl).1
  exact ⟨h1, h2⟩

/-- Witness for the amended C10 on a fresh database and one history message. -/
theorem c10_completion_resets_checkpoint_witness :
    ∃ n, (forward_historical_messages (baseEnv [⟨1⟩]) dbFresh).1.forwarding_progress
          = some ⟨0, n, true⟩
      ∧ (forward_historical_messages (baseEnv [⟨1⟩]) dbFresh).1.get_state
          "historical_forwarding_complete" = some "true"
      ∧ ∀ env2 : Env, forward_historical_messages env2
          (forward_historical_messages (baseEnv [⟨1⟩]) dbFresh).1
            = ((forward_historical_messages (baseEnv [⟨1⟩]) dbFresh).1, []) :=
  c10_completion_resets_checkpoint (baseEnv [⟨1⟩]) dbFresh testRow
    (by decide) (by decide) (by decide) (by decide)

end ForwarderBot
